import Mathlib

/-!
# Sprite-bounce demo (`pm5q_generate_a_auto.go`)

A shallow embedding of the Go program: the configuration records, the sprite
cache, the entity list, the four setup/loop methods of `Game`, and `main`.

Modelling conventions.

* Go's `int` is `GoInt`: an integer in the two's-complement range of the 64-bit
  machine word, `-2^63 ≤ val ≤ 2^63 - 1`. Addition and negation wrap around
  (`wrapInt` reduces modulo `2^64`), comparisons are those of the values.
* `map[string]*pixel.Sprite` is an association list with unique keys;
  `spriteSet` is the assignment `m[k] = v` and `spriteGet` the comma-ok lookup.
* `[]*Entity` is a list of entity values. `loadEntities` allocates a fresh
  `Entity` for every slot, so no two slots alias and the in-place loop of
  `update` is a `map` over the list.
* The graphics library is a collaborator: window creation, picture loading and
  sprite construction are the fields of `Engine`.
* `log.Fatal` and a runtime panic both end the process; a setup method returns
  `Except Failure _`, and `Run`/`main` return the trace of observable events.
-/

namespace AutoGame

/-! ## Machine integers -/

/-- Reduction of an integer to the two's-complement range of a 64-bit word. -/
def wrapInt (z : Int) : Int :=
  (z + 9223372036854775808) % 18446744073709551616 - 9223372036854775808

/-- A value of Go's type `int` (64-bit). -/
structure GoInt where
  val : Int
  lo : -9223372036854775808 ≤ val
  hi : val ≤ 9223372036854775807
deriving DecidableEq, Repr

/-- The `int` denoted by an integer constant; on the range of `int` its value is the
constant itself. -/
def GoInt.ofInt (z : Int) : GoInt :=
  ⟨wrapInt z, by unfold wrapInt; omega, by unfold wrapInt; omega⟩

/-- Go's `a + b` on `int`: the sum, wrapped around on overflow. -/
def GoInt.add (a b : GoInt) : GoInt :=
  ⟨wrapInt (a.val + b.val), by unfold wrapInt; omega, by unfold wrapInt; omega⟩

/-- Go's unary `-a` on `int`: the negation, wrapped around (so `-MinInt = MinInt`). -/
def GoInt.neg (a : GoInt) : GoInt :=
  ⟨wrapInt (-a.val), by unfold wrapInt; omega, by unfold wrapInt; omega⟩

instance : Add GoInt := ⟨GoInt.add⟩

instance : Neg GoInt := ⟨GoInt.neg⟩

/-! ## Data model -/

/-- Element type of `GameConfig.EntityConfigs` (the anonymous struct). -/
structure EntityConfig where
  Type_ : String
  Sprites : List String
  X : GoInt
  Y : GoInt
  Velocity : GoInt
deriving DecidableEq, Repr

/-- The Go struct `GameConfig`. -/
structure GameConfig where
  Title : String
  Width : GoInt
  Height : GoInt
  FPS : GoInt
  Background : String
  EntityConfigs : List EntityConfig
deriving DecidableEq, Repr

/-- The Go struct `Entity`; `S` is the type of drawables (`*pixel.Sprite`). -/
structure Entity (S : Type) where
  sprite : S
  x : GoInt
  y : GoInt
  vel : GoInt
deriving DecidableEq, Repr

/-- The argument of `pixelgl.NewWindow`. -/
structure WindowConfig where
  Title : String
  BoundsW : GoInt
  BoundsH : GoInt
  VSync : Bool
deriving DecidableEq, Repr

/-- A created window (`*pixelgl.Window`), known only by its handle. -/
structure Window where
  handle : Nat
deriving DecidableEq, Repr

/-- The Go struct `Game`. A `nil` window is `none`, a `nil` map is `[]`. -/
structure Game (S : Type) where
  cfg : GameConfig
  win : Option Window
  sprites : List (String × S)
  entities : List (Entity S)

/-- How the process can end abnormally: `log.Fatal msg`, or a runtime panic. -/
inductive Failure where
  | fatal (msg : String)
  | panic (msg : String)
deriving DecidableEq, Repr

/-- The calls into the graphics library that can fail or produce a value. -/
structure Engine (Pic S : Type) where
  newWindow : WindowConfig → Except String Window
  loadPicture : String → Except String Pic
  newSprite : Pic → S

/-! ## Sprite cache -/

/-- Lookup `sprite, ok := m[k]`. -/
def spriteGet {S : Type} : List (String × S) → String → Option S
  | [], _ => none
  | (k, v) :: m, p => if k = p then some v else spriteGet m p

/-- Assignment `m[k] = v`: overwrite the entry of `k`, or add one. -/
def spriteSet {S : Type} : List (String × S) → String → S → List (String × S)
  | [], p, s => [(p, s)]
  | (k, v) :: m, p, s => if k = p then (k, s) :: m else (k, v) :: spriteSet m p s

/-- Number of entries of the cache whose key is `p`. -/
def spriteCount {S : Type} (m : List (String × S)) (p : String) : Nat :=
  (m.filter (fun kv => decide (kv.1 = p))).length

/-! ## Setup -/

/-- `Game.setupWindow`. -/
def setupWindow {Pic S : Type} (eng : Engine Pic S) (g : Game S) : Except Failure (Game S) :=
  let cfg := g.cfg
  match eng.newWindow { Title := cfg.Title, BoundsW := cfg.Width, BoundsH := cfg.Height, VSync := true } with
  | .error err => .error (.fatal err)
  | .ok win => .ok { g with win := some win }

/-- Inner loop of `Game.loadSprites`: `for _, spritePath := range spriteCfg.Sprites`. -/
def loadSpritePaths {Pic S : Type} (eng : Engine Pic S) :
    List String → List (String × S) → Except Failure (List (String × S))
  | [], sprites => .ok sprites
  | spritePath :: rest, sprites =>
    match eng.loadPicture spritePath with
    | .error err => .error (.fatal err)
    | .ok pic => loadSpritePaths eng rest (spriteSet sprites spritePath (eng.newSprite pic))

/-- Outer loop of `Game.loadSprites`: `for _, spriteCfg := range g.cfg.EntityConfigs`. -/
def loadSpriteConfigs {Pic S : Type} (eng : Engine Pic S) :
    List EntityConfig → List (String × S) → Except Failure (List (String × S))
  | [], sprites => .ok sprites
  | spriteCfg :: rest, sprites =>
    match loadSpritePaths eng spriteCfg.Sprites sprites with
    | .error f => .error f
    | .ok sprites1 => loadSpriteConfigs eng rest sprites1

/-- `Game.loadSprites`. -/
def loadSprites {Pic S : Type} (eng : Engine Pic S) (g : Game S) : Except Failure (Game S) :=
  match loadSpriteConfigs eng g.cfg.EntityConfigs [] with
  | .error f => .error f
  | .ok sprites => .ok { g with sprites := sprites }

/-- Loop of `Game.loadEntities`; `entityCfg.Sprites[0]` panics on an empty slice. -/
def loadEntityList {S : Type} (sprites : List (String × S)) :
    List EntityConfig → Except Failure (List (Entity S))
  | [] => .ok []
  | entityCfg :: rest =>
    match entityCfg.Sprites with
    | [] => .error (.panic "runtime error: index out of range [0] with length 0")
    | first :: _ =>
      match spriteGet sprites first with
      | none => .error (.fatal "sprite not found")
      | some sprite =>
        match loadEntityList sprites rest with
        | .error f => .error f
        | .ok entities =>
          .ok ({ sprite := sprite, x := entityCfg.X, y := entityCfg.Y, vel := entityCfg.Velocity }
                :: entities)

/-- `Game.loadEntities`. -/
def loadEntities {S : Type} (g : Game S) : Except Failure (Game S) :=
  match loadEntityList g.sprites g.cfg.EntityConfigs with
  | .error f => .error f
  | .ok entities => .ok { g with entities := entities }

/-! ## Frame loop -/

/-- Body of the loop of `Game.update` for one entity: move, then test the bounds. -/
def updateEntity {S : Type} (width : GoInt) (entity : Entity S) : Entity S :=
  let moved : Entity S := { entity with x := entity.x + entity.vel }
  if moved.x.val > width.val ∨ moved.x.val < 0 then { moved with vel := -moved.vel } else moved

/-- `Game.update`. -/
def update {S : Type} (g : Game S) : Game S :=
  { g with entities := g.entities.map (updateEntity g.cfg.Width) }

/-- What `Game.draw` puts on screen: the clear colour and each sprite with its position. -/
structure Frame (S : Type) where
  background : String
  drawn : List (S × GoInt × GoInt)

/-- `Game.draw`. -/
def draw {S : Type} (g : Game S) : Frame S :=
  { background := g.cfg.Background, drawn := g.entities.map (fun e => (e.sprite, e.x, e.y)) }

/-- Observable events of a run of the process, in order. -/
inductive Event (S : Type) where
  | windowCreated
  | frame (f : Frame S)
  | windowDestroyed
  | exit (f : Failure)

/-- `Game.runLoop`; `frames` is the number of times `g.win.Closed()` answers false. -/
def runLoop {S : Type} (g : Game S) : Nat → List (Event S)
  | 0 => [.windowDestroyed]
  | frames + 1 =>
    let g1 := update g
    .frame (draw g1) :: runLoop g1 frames

/-- `Game.Run` (the call of `rand.Seed` has no effect on the game). -/
def Run {Pic S : Type} (eng : Engine Pic S) (g : Game S) (frames : Nat) : List (Event S) :=
  match setupWindow eng g with
  | .error f => [.exit f]
  | .ok g1 =>
    .windowCreated ::
      match loadSprites eng g1 with
      | .error f => [.exit f]
      | .ok g2 =>
        match loadEntities g2 with
        | .error f => [.exit f]
        | .ok g3 => runLoop g3 frames

/-- The composite literal `&Game{cfg: cfg}` of `main`: every other field is zero. -/
def newGame {S : Type} (cfg : GameConfig) : Game S :=
  { cfg := cfg, win := none, sprites := [], entities := [] }

/-- The function `main`; `parsed` is the result of `json.Unmarshal` on the embedded document. -/
def main {Pic S : Type} (eng : Engine Pic S) (parsed : Except String GameConfig) (frames : Nat) :
    List (Event S) :=
  match parsed with
  | .error err => [.exit (.fatal err)]
  | .ok cfg => Run eng (newGame cfg) frames

/-- The value the embedded JSON document of `main` decodes to. -/
def embeddedConfig : GameConfig :=
  { Title := "Auto Game", Width := .ofInt 800, Height := .ofInt 600, FPS := .ofInt 60,
    Background := "#ffffff",
    EntityConfigs :=
      [ { Type_ := "player", Sprites := ["player.Sprite.png"], X := .ofInt 400, Y := .ofInt 300,
          Velocity := .ofInt 5 },
        { Type_ := "enemy", Sprites := ["enemy.Sprite.png"], X := .ofInt 700, Y := .ofInt 500,
          Velocity := .ofInt (-3) } ] }

/-- All sprite paths of a configuration, in the order `loadSprites` visits them. -/
def allSpritePaths (cfg : GameConfig) : List String :=
  cfg.EntityConfigs.flatMap (fun c => c.Sprites)

/-- The integer values (x, y, vel) of an entity. -/
def Entity.coords {S : Type} (e : Entity S) : Int × Int × Int :=
  (e.x.val, e.y.val, e.vel.val)

/-- An engine in which every call succeeds; a picture is named by its path. -/
def fileEngine : Engine String String :=
  { newWindow := fun _ => .ok { handle := 1 },
    loadPicture := fun path => .ok path,
    newSprite := fun pic => pic }

/-- An engine that creates windows but finds no picture file. -/
def missingFileEngine : Engine String String :=
  { newWindow := fun _ => .ok { handle := 1 },
    loadPicture := fun _ => .error "no such file or directory",
    newSprite := fun pic => pic }

/-- A configuration that lists a path twice within one entity and again in another. -/
def repeatedPathsConfig : GameConfig :=
  { Title := "Auto Game", Width := .ofInt 800, Height := .ofInt 600, FPS := .ofInt 60,
    Background := "#ffffff",
    EntityConfigs :=
      [ { Type_ := "player", Sprites := ["a.png", "b.png", "a.png"], X := .ofInt 400,
          Y := .ofInt 300, Velocity := .ofInt 5 },
        { Type_ := "enemy", Sprites := ["b.png"], X := .ofInt 700, Y := .ofInt 500,
          Velocity := .ofInt (-3) } ] }

/-- The embedded configuration with a cache that holds both first sprite paths. -/
def cachedGame : Game String :=
  { cfg := embeddedConfig, win := some { handle := 1 },
    sprites := [("player.Sprite.png", "player"), ("enemy.Sprite.png", "enemy")],
    entities := [] }

/-- The embedded configuration with a cache that lacks the enemy sprite. -/
def staleCacheGame : Game String :=
  { cfg := embeddedConfig, win := some { handle := 1 },
    sprites := [("player.Sprite.png", "player")],
    entities := [] }

/-- A game with one entity at (x, y) with velocity vel in a window of the given width. -/
def singleEntityGame (width x y vel : Int) : Game Unit :=
  { cfg := { Title := "Auto Game", Width := .ofInt width, Height := .ofInt 600, FPS := .ofInt 60,
             Background := "#ffffff", EntityConfigs := [] },
    win := none, sprites := [],
    entities := [ { sprite := (), x := .ofInt x, y := .ofInt y, vel := .ofInt vel } ] }

/-- The scenario of one entity at x = 700 with velocity -3 in a window of width 800. -/
def scenarioGame : Game Unit := singleEntityGame 800 700 500 (-3)

/-- A game of width 10 with one entity about to land exactly on x = Width. -/
def boundaryGame : Game Unit := singleEntityGame 10 7 2 3

/-- A game of width 10 with one entity that starts far to the right of the window. -/
def farGame : Game Unit := singleEntityGame 10 20 2 3

/-- A game of width 800 with one entity on the last pixel column moving right by 5. -/
def edgeGame : Game Unit := singleEntityGame 800 799 300 5

/-- A game whose configured width is negative, with one entity about to land on x = Width. -/
def negativeWidthGame : Game Unit := singleEntityGame (-1) (-2) 0 1

/-- Width 800 and an entity two below the largest `int`, moving right by 5. -/
def overflowGame : Game Unit := singleEntityGame 800 9223372036854775806 0 5

/-- A width three below the largest `int`, the entity at x = Width - 1 moving right by 5. -/
def widestEdgeGame : Game Unit :=
  singleEntityGame 9223372036854775804 9223372036854775803 300 5

/-- Width 800, an entity on the right bound whose velocity reaches past the largest `int`. -/
def fastGame : Game Unit := singleEntityGame 800 800 0 9223372036854775008

/-- The largest width, and an entity at the smallest `int` moving left by 1. -/
def wrapAroundGame : Game Unit :=
  singleEntityGame 9223372036854775807 (-9223372036854775808) 0 (-1)

/-! ## Machine integers: basic facts -/

section IntLemmas

theorem wrapInt_of_inRange (z : Int) (h1 : -9223372036854775808 ≤ z)
    (h2 : z ≤ 9223372036854775807) : wrapInt z = z := by
  unfold wrapInt
  omega

theorem GoInt.eq_of_val_eq {a b : GoInt} (h : a.val = b.val) : a = b := by
  cases a
  cases b
  simp only at h
  subst h
  rfl

theorem GoInt.add_val (a b : GoInt) : (a + b).val = wrapInt (a.val + b.val) := rfl

theorem GoInt.neg_val (a : GoInt) : (-a).val = wrapInt (-a.val) := rfl

theorem GoInt.ofInt_val (z : Int) : (GoInt.ofInt z).val = wrapInt z := rfl

end IntLemmas

/-! ## The update step on one entity -/

section UpdateLemmas

variable {S : Type}

theorem Entity.eq_of_fields {e1 e2 : Entity S} (hs : e1.sprite = e2.sprite)
    (hx : e1.x.val = e2.x.val) (hy : e1.y = e2.y) (hv : e1.vel.val = e2.vel.val) : e1 = e2 := by
  cases e1
  cases e2
  simp only at hs hx hy hv
  rw [Entity.mk.injEq]
  exact ⟨hs, GoInt.eq_of_val_eq hx, hy, GoInt.eq_of_val_eq hv⟩

theorem updateEntity_eq (w : GoInt) (e : Entity S) :
    updateEntity w e =
      { sprite := e.sprite, x := e.x + e.vel, y := e.y,
        vel := if (e.x + e.vel).val > w.val ∨ (e.x + e.vel).val < 0 then -e.vel else e.vel } := by
  dsimp only [updateEntity]
  split <;> rfl

theorem updateEntity_x (w : GoInt) (e : Entity S) :
    (updateEntity w e).x.val = wrapInt (e.x.val + e.vel.val) := by
  rw [updateEntity_eq]
  rfl

theorem updateEntity_y (w : GoInt) (e : Entity S) : (updateEntity w e).y = e.y := by
  rw [updateEntity_eq]

theorem updateEntity_sprite (w : GoInt) (e : Entity S) :
    (updateEntity w e).sprite = e.sprite := by
  rw [updateEntity_eq]

theorem updateEntity_vel (w : GoInt) (e : Entity S) :
    (updateEntity w e).vel =
      if (updateEntity w e).x.val > w.val ∨ (updateEntity w e).x.val < 0 then -e.vel
      else e.vel := by
  rw [updateEntity_eq]

theorem update_iterate (g : Game S) (n : Nat) :
    update^[n] g = { g with entities := g.entities.map ((updateEntity g.cfg.Width)^[n]) } := by
  induction n with
  | zero => simp
  | succ n ih =>
    rw [Function.iterate_succ_apply', ih]
    simp only [update, List.map_map]
    congr 1
    apply List.map_congr_left
    intro e _
    simp only [Function.comp_apply, Function.iterate_succ_apply']

theorem update_iterate_entity (g : Game S) (n i : Nat) (e : Entity S)
    (he : g.entities[i]? = some e) :
    (update^[n] g).entities[i]? = some ((updateEntity g.cfg.Width)^[n] e) := by
  rw [update_iterate]
  simp [List.getElem?_map, he]

/-- While no step leaves `[0, w]`, the position is linear in the step count. -/
theorem updateEntity_iterate_linear (w : GoInt) (e : Entity S) (N : Nat)
    (h : ∀ k : Nat, 1 ≤ k → k ≤ N →
      0 ≤ e.x.val + (k : Int) * e.vel.val ∧ e.x.val + (k : Int) * e.vel.val ≤ w.val) :
    ((updateEntity w)^[N] e).x.val = e.x.val + (N : Int) * e.vel.val ∧
      ((updateEntity w)^[N] e).vel = e.vel ∧
      ((updateEntity w)^[N] e).y = e.y ∧
      ((updateEntity w)^[N] e).sprite = e.sprite := by
  induction N with
  | zero => simp
  | succ n ih =>
    obtain ⟨hx, hv, hy, hsp⟩ := ih (fun k h1 h2 => h k h1 (Nat.le_succ_of_le h2))
    have hs := h (n + 1) (Nat.le_add_left 1 n) (Nat.le_refl _)
    have hw := w.hi
    rw [Function.iterate_succ_apply']
    generalize (updateEntity w)^[n] e = r at hx hv hy hsp ⊢
    push_cast at hs ⊢
    have e1 : e.x.val + ((n : Int) + 1) * e.vel.val = e.x.val + (n : Int) * e.vel.val + e.vel.val := by
      ring
    rw [e1] at hs ⊢
    generalize (n : Int) * e.vel.val = t at hx hs ⊢
    have hx1 : (updateEntity w r).x.val = e.x.val + t + e.vel.val := by
      rw [updateEntity_x, hx, hv]
      exact wrapInt_of_inRange _ (by omega) (by omega)
    refine ⟨hx1, ?_, ?_, ?_⟩
    · rw [updateEntity_vel, hx1]
      have hno : ¬ (e.x.val + t + e.vel.val > w.val ∨ e.x.val + t + e.vel.val < 0) := by omega
      rw [if_neg hno, hv]
    · rw [updateEntity_y, hy]
    · rw [updateEntity_sprite, hsp]

/-- One step keeps an entity either inside `[0, w]` or one step away from it, provided one
step past the right bound is representable. -/
theorem updateEntity_near (w : GoInt) (v : Int) (e : Entity S)
    (hfit : w.val + |v| ≤ 9223372036854775807)
    (h : |e.vel.val| = |v| ∧
      ((0 ≤ e.x.val ∧ e.x.val ≤ w.val) ∨
        (0 ≤ e.x.val + e.vel.val ∧ e.x.val + e.vel.val ≤ w.val))) :
    |(updateEntity w e).vel.val| = |v| ∧
      ((0 ≤ (updateEntity w e).x.val ∧ (updateEntity w e).x.val ≤ w.val) ∨
        (0 ≤ (updateEntity w e).x.val + (updateEntity w e).vel.val ∧
          (updateEntity w e).x.val + (updateEntity w e).vel.val ≤ w.val)) ∧
      (updateEntity w e).x.val = e.x.val + e.vel.val := by
  obtain ⟨hv, hpos⟩ := h
  have a1 : e.vel.val ≤ |e.vel.val| := le_abs_self _
  have a2 : -|e.vel.val| ≤ e.vel.val := neg_abs_le _
  have a3 : 0 ≤ |e.vel.val| := abs_nonneg _
  rw [hv] at a1 a2 a3
  have hx : (updateEntity w e).x.val = e.x.val + e.vel.val := by
    rw [updateEntity_x]
    apply wrapInt_of_inRange <;> omega
  have hneg : (-e.vel).val = -e.vel.val := by
    rw [GoInt.neg_val]
    apply wrapInt_of_inRange <;> omega
  rw [updateEntity_vel, hx]
  by_cases hc : e.x.val + e.vel.val > w.val ∨ e.x.val + e.vel.val < 0
  · rw [if_pos hc, hneg]
    refine ⟨by rw [abs_neg]; exact hv, ?_, rfl⟩
    rcases hpos with hin | hnext
    · right
      constructor <;> omega
    · omega
  · rw [if_neg hc]
    refine ⟨hv, ?_, rfl⟩
    left
    omega

theorem updateEntity_iterate_near (w : GoInt) (v : Int) (e : Entity S) (n : Nat)
    (hfit : w.val + |v| ≤ 9223372036854775807)
    (h : |e.vel.val| = |v| ∧
      ((0 ≤ e.x.val ∧ e.x.val ≤ w.val) ∨
        (0 ≤ e.x.val + e.vel.val ∧ e.x.val + e.vel.val ≤ w.val))) :
    |((updateEntity w)^[n] e).vel.val| = |v| ∧
      ((0 ≤ ((updateEntity w)^[n] e).x.val ∧ ((updateEntity w)^[n] e).x.val ≤ w.val) ∨
        (0 ≤ ((updateEntity w)^[n] e).x.val + ((updateEntity w)^[n] e).vel.val ∧
          ((updateEntity w)^[n] e).x.val + ((updateEntity w)^[n] e).vel.val ≤ w.val)) := by
  induction n with
  | zero => simpa using h
  | succ n ih =>
    rw [Function.iterate_succ_apply']
    have hstep := updateEntity_near w v _ hfit ih
    exact ⟨hstep.1, hstep.2.1⟩

/-- An entity more than one step outside the bounds reverses at every step, provided its
first step and the negation of its velocity are representable. -/
theorem updateEntity_far (w : GoInt) (e : Entity S)
    (hout : e.x.val - |e.vel.val| > w.val ∨ e.x.val + |e.vel.val| < 0)
    (hlo : -9223372036854775808 ≤ e.x.val + e.vel.val)
    (hhi : e.x.val + e.vel.val ≤ 9223372036854775807)
    (hneg : -9223372036854775808 < e.vel.val) :
    (updateEntity w e).x.val = e.x.val + e.vel.val ∧
      (updateEntity w e).vel.val = -e.vel.val ∧
      (updateEntity w e).y = e.y ∧ (updateEntity w e).sprite = e.sprite ∧
      updateEntity w (updateEntity w e) = e := by
  have a1 : e.vel.val ≤ |e.vel.val| := le_abs_self _
  have a2 : -|e.vel.val| ≤ e.vel.val := neg_abs_le _
  have b1 := e.vel.hi
  have b2 := e.x.lo
  have b3 := e.x.hi
  have hx : (updateEntity w e).x.val = e.x.val + e.vel.val := by
    rw [updateEntity_x]
    exact wrapInt_of_inRange _ hlo hhi
  have hv : (updateEntity w e).vel.val = -e.vel.val := by
    rw [updateEntity_vel, hx]
    have hc : e.x.val + e.vel.val > w.val ∨ e.x.val + e.vel.val < 0 := by omega
    rw [if_pos hc, GoInt.neg_val]
    apply wrapInt_of_inRange <;> omega
  refine ⟨hx, hv, updateEntity_y w e, updateEntity_sprite w e, ?_⟩
  have hx2 : (updateEntity w (updateEntity w e)).x.val = e.x.val := by
    rw [updateEntity_x, hx, hv]
    have : e.x.val + e.vel.val + -e.vel.val = e.x.val := by ring
    rw [this]
    exact wrapInt_of_inRange _ b2 b3
  apply Entity.eq_of_fields
  · rw [updateEntity_sprite, updateEntity_sprite]
  · exact hx2
  · rw [updateEntity_y, updateEntity_y]
  · rw [updateEntity_vel, hx2]
    have hc : e.x.val > w.val ∨ e.x.val < 0 := by omega
    rw [if_pos hc, GoInt.neg_val, hv]
    have : - -e.vel.val = e.vel.val := by ring
    rw [this]
    exact wrapInt_of_inRange _ e.vel.lo e.vel.hi

theorem updateEntity_iterate_far (w : GoInt) (e : Entity S)
    (hout : e.x.val - |e.vel.val| > w.val ∨ e.x.val + |e.vel.val| < 0)
    (hlo : -9223372036854775808 ≤ e.x.val + e.vel.val)
    (hhi : e.x.val + e.vel.val ≤ 9223372036854775807)
    (hneg : -9223372036854775808 < e.vel.val) (k : Nat) :
    (updateEntity w)^[2 * k] e = e ∧ (updateEntity w)^[2 * k + 1] e = updateEntity w e := by
  have hstep := (updateEntity_far w e hout hlo hhi hneg).2.2.2.2
  induction k with
  | zero => exact ⟨rfl, rfl⟩
  | succ k ih =>
    have h2 : (updateEntity w)^[2 * (k + 1)] e = e := by
      have : 2 * (k + 1) = (2 * k + 1) + 1 := by ring
      rw [this, Function.iterate_succ_apply', ih.2, hstep]
    refine ⟨h2, ?_⟩
    rw [Function.iterate_succ_apply', h2]

/-- The scenario entity moves left by 3 per step for its first 233 steps. -/
theorem scenario_linear (k : Nat) (hk : k ≤ 233) :
    (update^[k] scenarioGame).entities.map Entity.coords = [(700 - 3 * (k : Int), 500, -3)] := by
  have hlin := updateEntity_iterate_linear (GoInt.ofInt 800)
    ({ sprite := (), x := .ofInt 700, y := .ofInt 500, vel := .ofInt (-3) } : Entity Unit) k
    (by
      intro j h1 h2
      have e1 : (GoInt.ofInt 700).val = 700 := by decide
      have e2 : (GoInt.ofInt (-3)).val = -3 := by decide
      have e3 : (GoInt.ofInt 800).val = 800 := by decide
      simp only [e1, e2, e3]
      omega)
  have e1 : (GoInt.ofInt 700).val = 700 := by decide
  have e2 : (GoInt.ofInt (-3)).val = -3 := by decide
  have e4 : (GoInt.ofInt 500).val = 500 := by decide
  obtain ⟨hx, hv, hy, _⟩ := hlin
  rw [update_iterate]
  simp only [scenarioGame, singleEntityGame, List.map_cons, List.map_nil, Entity.coords, hx, hv,
    hy, e1, e2, e4]
  simp only [List.cons.injEq, Prod.mk.injEq, and_true]
  omega

end UpdateLemmas

/-! ## The sprite cache -/

section CacheLemmas

variable {Pic S : Type}

theorem spriteGet_spriteSet (m : List (String × S)) (p q : String) (s : S) :
    spriteGet (spriteSet m p s) q = if p = q then some s else spriteGet m q := by
  induction m with
  | nil => simp [spriteSet, spriteGet]
  | cons kv m ih =>
    obtain ⟨k, v⟩ := kv
    by_cases hk : k = p
    · subst hk
      by_cases hq : k = q <;> simp [spriteSet, spriteGet, hq]
    · by_cases hq : k = q
      · subst hq
        have hpk : ¬ p = k := fun h => hk h.symm
        simp [spriteSet, spriteGet, hk, hpk]
      · simp [spriteSet, spriteGet, hk, hq, ih]

theorem spriteCount_spriteSet (m : List (String × S)) (p q : String) (s : S) :
    spriteCount (spriteSet m p s) q =
      if q = p then (if spriteCount m p = 0 then 1 else spriteCount m p)
      else spriteCount m q := by
  induction m with
  | nil => by_cases hq : q = p <;> simp [spriteSet, spriteCount, hq, eq_comm]
  | cons kv m ih =>
    obtain ⟨k, v⟩ := kv
    unfold spriteCount at ih ⊢
    by_cases hk : k = p
    · subst hk
      by_cases hq : q = k
      · subst hq
        simp [spriteSet, List.filter_cons]
      · have hq2 : ¬ k = q := fun h => hq h.symm
        simp [spriteSet, List.filter_cons, hq, hq2]
    · by_cases hq : q = p
      · subst hq
        simp only [spriteSet, if_neg hk, List.filter_cons, hk, decide_False, Bool.false_eq_true,
          if_false, if_true]
        simpa using ih
      · by_cases hkq : k = q
        · simp only [spriteSet, if_neg hk, List.filter_cons, hkq, decide_True, if_true,
            List.length_cons, if_neg hq]
          simp only [if_neg hq] at ih
          omega
        · simp only [spriteSet, if_neg hk, List.filter_cons, hkq, decide_False,
            Bool.false_eq_true, if_false, if_neg hq]
          simpa [hq] using ih

/-- Loading a list of paths whose pictures all load extends a duplicate-free cache that
holds exactly the keys `ks` to one that holds exactly the keys `ks ++ ps`. -/
theorem loadSpritePaths_ok (eng : Engine Pic S) (ps ks : List String) (m : List (String × S))
    (hm : ∀ q, spriteCount m q = if q ∈ ks then 1 else 0)
    (hv : ∀ q ∈ ks, ∃ pic, eng.loadPicture q = .ok pic ∧ spriteGet m q = some (eng.newSprite pic))
    (hload : ∀ q ∈ ps, ∃ pic, eng.loadPicture q = .ok pic) :
    ∃ m1, loadSpritePaths eng ps m = .ok m1 ∧
      (∀ q, spriteCount m1 q = if q ∈ ks ++ ps then 1 else 0) ∧
      (∀ q ∈ ks ++ ps,
        ∃ pic, eng.loadPicture q = .ok pic ∧ spriteGet m1 q = some (eng.newSprite pic)) := by
  induction ps generalizing ks m with
  | nil => exact ⟨m, rfl, by simpa using hm, by simpa using hv⟩
  | cons p ps ih =>
    obtain ⟨pic, hpic⟩ := hload p (List.mem_cons_self p ps)
    have hm1 : ∀ q, spriteCount (spriteSet m p (eng.newSprite pic)) q =
        if q ∈ ks ++ [p] then 1 else 0 := by
      intro q
      rw [spriteCount_spriteSet]
      by_cases hq : q = p
      · subst hq
        have := hm q
        by_cases hk : q ∈ ks <;> simp [hk] at this ⊢ <;> simp [this]
      · simp [hq, hm q]
    have hv1 : ∀ q ∈ ks ++ [p], ∃ pic1, eng.loadPicture q = .ok pic1 ∧
        spriteGet (spriteSet m p (eng.newSprite pic)) q = some (eng.newSprite pic1) := by
      intro q hq
      rw [spriteGet_spriteSet]
      by_cases hpq : p = q
      · subst hpq
        exact ⟨pic, hpic, by simp⟩
      · have hqk : q ∈ ks := by
          rcases List.mem_append.mp hq with h | h
          · exact h
          · exact absurd (List.mem_singleton.mp h).symm hpq
        simpa [hpq] using hv q hqk
    obtain ⟨m1, hrun, hc, hg⟩ := ih (ks ++ [p]) _ hm1 hv1
      (fun q hq => hload q (List.mem_cons_of_mem p hq))
    refine ⟨m1, ?_, ?_, ?_⟩
    · simp only [loadSpritePaths, hpic]
      exact hrun
    · simpa using hc
    · simpa using hg

theorem loadSpriteConfigs_ok (eng : Engine Pic S) (cs : List EntityConfig) (ks : List String)
    (m : List (String × S))
    (hm : ∀ q, spriteCount m q = if q ∈ ks then 1 else 0)
    (hv : ∀ q ∈ ks, ∃ pic, eng.loadPicture q = .ok pic ∧ spriteGet m q = some (eng.newSprite pic))
    (hload : ∀ q ∈ cs.flatMap (fun c => c.Sprites), ∃ pic, eng.loadPicture q = .ok pic) :
    ∃ m1, loadSpriteConfigs eng cs m = .ok m1 ∧
      (∀ q, spriteCount m1 q = if q ∈ ks ++ cs.flatMap (fun c => c.Sprites) then 1 else 0) ∧
      (∀ q ∈ ks ++ cs.flatMap (fun c => c.Sprites),
        ∃ pic, eng.loadPicture q = .ok pic ∧ spriteGet m1 q = some (eng.newSprite pic)) := by
  induction cs generalizing ks m with
  | nil => exact ⟨m, rfl, by simpa using hm, by simpa using hv⟩
  | cons c cs ih =>
    have hsplit : ∀ q, q ∈ c.Sprites ∨ q ∈ cs.flatMap (fun c => c.Sprites) →
        ∃ pic, eng.loadPicture q = .ok pic := by
      intro q hq
      apply hload q
      rw [List.flatMap_cons]
      exact List.mem_append.mpr hq
    obtain ⟨m1, hrun1, hc1, hg1⟩ := loadSpritePaths_ok eng c.Sprites ks m hm hv
      (fun q hq => hsplit q (Or.inl hq))
    obtain ⟨m2, hrun2, hc2, hg2⟩ := ih (ks ++ c.Sprites) m1 hc1 hg1
      (fun q hq => hsplit q (Or.inr hq))
    refine ⟨m2, ?_, ?_, ?_⟩
    · simp only [loadSpriteConfigs, hrun1]
      exact hrun2
    · simpa [List.flatMap_cons, List.append_assoc] using hc2
    · simpa [List.flatMap_cons, List.append_assoc] using hg2

/-- Whatever the loader does, a path list that was loaded to completion is in the cache,
and so is everything that was in the cache before. -/
theorem loadSpritePaths_isSome (eng : Engine Pic S) (ps : List String) (m m1 : List (String × S))
    (hrun : loadSpritePaths eng ps m = .ok m1) (q : String)
    (hq : q ∈ ps ∨ (spriteGet m q).isSome = true) : (spriteGet m1 q).isSome = true := by
  induction ps generalizing m with
  | nil =>
    simp only [loadSpritePaths, Except.ok.injEq] at hrun
    subst hrun
    simpa using hq
  | cons p ps ih =>
    simp only [loadSpritePaths] at hrun
    cases hpic : eng.loadPicture p with
    | error err => simp [hpic] at hrun
    | ok pic =>
      simp only [hpic] at hrun
      apply ih _ hrun
      by_cases hpq : p = q
      · right
        simp [spriteGet_spriteSet, hpq]
      · rcases hq with hq | hq
        · rcases List.mem_cons.mp hq with h | h
          · exact absurd h.symm hpq
          · exact Or.inl h
        · right
          simpa [spriteGet_spriteSet, hpq] using hq

theorem loadSpriteConfigs_isSome (eng : Engine Pic S) (cs : List EntityConfig)
    (m m1 : List (String × S)) (hrun : loadSpriteConfigs eng cs m = .ok m1) (q : String)
    (hq : (∃ c ∈ cs, q ∈ c.Sprites) ∨ (spriteGet m q).isSome = true) :
    (spriteGet m1 q).isSome = true := by
  induction cs generalizing m with
  | nil =>
    simp only [loadSpriteConfigs, Except.ok.injEq] at hrun
    subst hrun
    simpa using hq
  | cons c cs ih =>
    simp only [loadSpriteConfigs] at hrun
    cases hinner : loadSpritePaths eng c.Sprites m with
    | error f => simp [hinner] at hrun
    | ok m2 =>
      simp only [hinner] at hrun
      apply ih _ hrun
      rcases hq with ⟨c1, hc1, hqc⟩ | hq
      · rcases List.mem_cons.mp hc1 with h | h
        · subst h
          exact Or.inr (loadSpritePaths_isSome eng _ m m2 hinner q (Or.inl hqc))
        · exact Or.inl ⟨c1, h, hqc⟩
      · exact Or.inr (loadSpritePaths_isSome eng _ m m2 hinner q (Or.inr hq))

end CacheLemmas

/-! ## Entity construction and the run trace -/

section SetupLemmas

variable {Pic S : Type}

theorem loadEntityList_ok (sprites : List (String × S)) (cs : List EntityConfig)
    (h : ∀ c ∈ cs, ∃ first rest sprite,
      c.Sprites = first :: rest ∧ spriteGet sprites first = some sprite) :
    ∃ es, loadEntityList sprites cs = .ok es ∧ es.length = cs.length ∧
      ∀ (i : Nat) (c : EntityConfig), cs[i]? = some c →
        ∃ e first rest, es[i]? = some e ∧ c.Sprites = first :: rest ∧
          spriteGet sprites first = some e.sprite ∧
          e.x = c.X ∧ e.y = c.Y ∧ e.vel = c.Velocity := by
  induction cs with
  | nil => exact ⟨[], rfl, rfl, by simp⟩
  | cons c cs ih =>
    obtain ⟨first, rest, sprite, hs, hget⟩ := h c (List.mem_cons_self c cs)
    obtain ⟨es, hrun, hlen, hall⟩ := ih (fun c1 hc1 => h c1 (List.mem_cons_of_mem c hc1))
    refine ⟨{ sprite := sprite, x := c.X, y := c.Y, vel := c.Velocity } :: es, ?_, ?_, ?_⟩
    · simp only [loadEntityList, hs, hget, hrun]
    · simp [hlen]
    · intro i c1 hi
      cases i with
      | zero =>
        simp only [List.getElem?_cons_zero, Option.some.injEq] at hi
        subst hi
        exact ⟨{ sprite := sprite, x := c.X, y := c.Y, vel := c.Velocity }, first, rest,
          List.getElem?_cons_zero, hs, hget, rfl, rfl, rfl⟩
      | succ i =>
        simp only [List.getElem?_cons_succ] at hi
        simpa using hall i c1 hi

theorem loadEntityList_missing (sprites : List (String × S)) (cs : List EntityConfig)
    (hne : ∀ c ∈ cs, c.Sprites ≠ [])
    (hmiss : ∃ c ∈ cs, ∃ first rest, c.Sprites = first :: rest ∧ spriteGet sprites first = none) :
    loadEntityList sprites cs = .error (.fatal "sprite not found") := by
  induction cs with
  | nil =>
    obtain ⟨c, hc, _⟩ := hmiss
    exact absurd hc (List.not_mem_nil c)
  | cons c cs ih =>
    cases hs : c.Sprites with
    | nil => exact absurd hs (hne c (List.mem_cons_self c cs))
    | cons first rest =>
      cases hget : spriteGet sprites first with
      | none => simp only [loadEntityList, hs, hget]
      | some sprite =>
        have hrest : loadEntityList sprites cs = .error (.fatal "sprite not found") := by
          apply ih (fun c1 hc1 => hne c1 (List.mem_cons_of_mem c hc1))
          obtain ⟨c1, hc1, f1, r1, hs1, hg1⟩ := hmiss
          rcases List.mem_cons.mp hc1 with h | h
          · subst h
            rw [hs] at hs1
            simp only [List.cons.injEq] at hs1
            rw [← hs1.1, hget] at hg1
            exact absurd hg1 (by simp)
          · exact ⟨c1, h, f1, r1, hs1, hg1⟩
        simp only [loadEntityList, hs, hget, hrest]

/-- A missing first path stops entity construction, whatever the other configs hold. -/
theorem loadEntityList_missing_error (sprites : List (String × S)) (cs : List EntityConfig)
    (hmiss : ∃ c ∈ cs, ∃ first rest, c.Sprites = first :: rest ∧ spriteGet sprites first = none) :
    ∃ f, loadEntityList sprites cs = .error f := by
  induction cs with
  | nil =>
    obtain ⟨c, hc, _⟩ := hmiss
    exact absurd hc (List.not_mem_nil c)
  | cons c cs ih =>
    cases hs : c.Sprites with
    | nil =>
      exact ⟨.panic "runtime error: index out of range [0] with length 0", by simp only [loadEntityList, hs]⟩
    | cons first rest =>
      cases hget : spriteGet sprites first with
      | none => exact ⟨.fatal "sprite not found", by simp only [loadEntityList, hs, hget]⟩
      | some sprite =>
        have hrest : ∃ f, loadEntityList sprites cs = .error f := by
          apply ih
          obtain ⟨c1, hc1, f1, r1, hs1, hg1⟩ := hmiss
          rcases List.mem_cons.mp hc1 with h | h
          · subst h
            rw [hs] at hs1
            simp only [List.cons.injEq] at hs1
            rw [← hs1.1, hget] at hg1
            exact absurd hg1 (by simp)
          · exact ⟨c1, h, f1, r1, hs1, hg1⟩
        obtain ⟨f, hf⟩ := hrest
        exact ⟨f, by simp only [loadEntityList, hs, hget, hf]⟩

theorem loadSprites_ok_inv (eng : Engine Pic S) (g g1 : Game S)
    (h : loadSprites eng g = .ok g1) :
    ∃ m, loadSpriteConfigs eng g.cfg.EntityConfigs [] = .ok m ∧ g1 = { g with sprites := m } := by
  unfold loadSprites at h
  cases hm : loadSpriteConfigs eng g.cfg.EntityConfigs [] with
  | error f => simp [hm] at h
  | ok m =>
    simp only [hm, Except.ok.injEq] at h
    exact ⟨m, rfl, h.symm⟩

/-- The loop emits frames and the final destruction of the window, never an exit. -/
theorem runLoop_events (g : Game S) (frames : Nat) :
    ∀ ev ∈ runLoop g frames, (∃ fr, ev = Event.frame fr) ∨ ev = Event.windowDestroyed := by
  induction frames generalizing g with
  | zero =>
    intro ev hev
    simp only [runLoop, List.mem_singleton] at hev
    exact Or.inr hev
  | succ n ih =>
    intro ev hev
    simp only [runLoop, List.mem_cons] at hev
    rcases hev with h | h
    · exact Or.inl ⟨_, h⟩
    · exact ih _ ev h

end SetupLemmas

/-! ## The update step: contract, scenario and invariants -/

section UpdateClaims

variable {S : Type}

/-- C1 (refuted as stated), two inputs. With the negative width -1, an entity that lands
exactly on x = Width = -1 is below zero, so its velocity does flip (from 1 to -1). With
width 800, an entity at x = 2^63 - 2 with velocity 5 is not moved to x + vel = 2^63 + 3: the
addition wraps around to -2^63 + 3, which is below zero, and the velocity flips. -/
theorem update_boundary_flip_and_wrap :
    negativeWidthGame.cfg.Width.val = -1 ∧
      negativeWidthGame.entities.map Entity.coords = [(-2, 0, 1)] ∧
      (update negativeWidthGame).entities.map Entity.coords = [(-1, 0, -1)] ∧
      overflowGame.cfg.Width.val = 800 ∧
      overflowGame.entities.map Entity.coords = [(9223372036854775806, 0, 5)] ∧
      (update overflowGame).entities.map Entity.coords = [(-9223372036854775805, 0, -5)] := by
  decide

/-- C1 (amended): `update` keeps the configuration, the window and the sprite cache, and
maps every entity (x, y, vel), in place and in order, to (x', y, vel') where x' is x + vel in
the wrapping arithmetic of `int` (x' = x + vel whenever that sum lies in the range of `int`),
and vel' is -vel (wrapping: exact unless vel is the least `int`) if x' > Width or x' < 0 and
vel otherwise; the drawable and y are kept. When Width is not negative, landing exactly on
x + vel = Width or on x + vel = 0 does not flip the velocity. -/
theorem update_contract (g : Game S) :
    (update g).cfg = g.cfg ∧ (update g).win = g.win ∧ (update g).sprites = g.sprites ∧
      (update g).entities.length = g.entities.length ∧
      (update g).entities = g.entities.map (fun e =>
        { sprite := e.sprite, x := e.x + e.vel, y := e.y,
          vel := if (e.x + e.vel).val > g.cfg.Width.val ∨ (e.x + e.vel).val < 0 then -e.vel
                 else e.vel }) ∧
      (∀ (i : Nat) (e : Entity S), g.entities[i]? = some e →
        ∃ e1, (update g).entities[i]? = some e1 ∧ e1.sprite = e.sprite ∧ e1.y = e.y ∧
          e1.x.val = wrapInt (e.x.val + e.vel.val) ∧
          e1.vel.val =
            (if e1.x.val > g.cfg.Width.val ∨ e1.x.val < 0 then wrapInt (-e.vel.val)
             else e.vel.val) ∧
          (-9223372036854775808 ≤ e.x.val + e.vel.val →
            e.x.val + e.vel.val ≤ 9223372036854775807 → e1.x.val = e.x.val + e.vel.val) ∧
          (-9223372036854775808 < e.vel.val → wrapInt (-e.vel.val) = -e.vel.val) ∧
          (0 ≤ g.cfg.Width.val →
            (e.x.val + e.vel.val = g.cfg.Width.val ∨ e.x.val + e.vel.val = 0) →
            e1.x.val = e.x.val + e.vel.val ∧ e1.vel = e.vel)) := by
  refine ⟨rfl, rfl, rfl, by simp [update], ?_, ?_⟩
  · simp only [update]
    apply List.map_congr_left
    intro e _
    exact updateEntity_eq _ e
  · intro i e he
    refine ⟨updateEntity g.cfg.Width e, by simp [update, List.getElem?_map, he],
      updateEntity_sprite _ e, updateEntity_y _ e, updateEntity_x _ e, ?_, ?_, ?_, ?_⟩
    · rw [updateEntity_vel]
      split
      · exact GoInt.neg_val _
      · rfl
    · intro h1 h2
      rw [updateEntity_x]
      exact wrapInt_of_inRange _ h1 h2
    · intro h1
      have h2 := e.vel.hi
      apply wrapInt_of_inRange <;> omega
    · intro hw hb
      have hwhi := g.cfg.Width.hi
      have hx : (updateEntity g.cfg.Width e).x.val = e.x.val + e.vel.val := by
        rw [updateEntity_x]
        apply wrapInt_of_inRange <;> omega
      refine ⟨hx, ?_⟩
      rw [updateEntity_vel, hx]
      have hc : ¬ (e.x.val + e.vel.val > g.cfg.Width.val ∨ e.x.val + e.vel.val < 0) := by omega
      rw [if_neg hc]

/-- C1 witness: a game of width 10 with an entity landing exactly on the width. -/
theorem update_contract_witness :
    boundaryGame.cfg.Width.val = 10 ∧
      boundaryGame.entities[0]? =
        some { sprite := (), x := .ofInt 7, y := .ofInt 2, vel := .ofInt 3 } ∧
      ∃ e1, (update boundaryGame).entities[0]? = some e1 ∧ e1.x.val = 10 ∧ e1.vel.val = 3 := by
  obtain ⟨e1, h1, _, _, _, _, _, _, hb⟩ := (update_contract boundaryGame).2.2.2.2.2 0
    { sprite := (), x := .ofInt 7, y := .ofInt 2, vel := .ofInt 3 } rfl
  have h := hb (by decide) (Or.inl (by decide))
  exact ⟨by decide, rfl, e1, h1, by rw [h.1]; decide, by rw [h.2]; decide⟩

/-- C2 (refuted as stated): after 34 calls of `update` the scenario entity is at x = 598
with velocity -3, not +3, and at none of the steps 0, ..., 34 was its x below zero. -/
theorem scenario_after_34_steps :
    (update^[34] scenarioGame).entities.map Entity.coords = [(598, 500, -3)] ∧
      (List.range 35).all (fun k =>
        (update^[k] scenarioGame).entities.all (fun e => decide (0 ≤ e.x.val))) = true := by
  constructor
  · rw [scenario_linear 34 (by decide)]
    simp
  · rw [List.all_eq_true]
    intro k hk
    have hk35 : k < 35 := List.mem_range.mp hk
    have h := scenario_linear k (by omega)
    rw [List.all_eq_true]
    intro e he
    have hmem : e.coords ∈ (update^[k] scenarioGame).entities.map Entity.coords :=
      List.mem_map_of_mem _ he
    rw [h, List.mem_singleton] at hmem
    have hx : e.x.val = 700 - 3 * (k : Int) := congrArg Prod.fst hmem
    simp only [decide_eq_true_eq]
    omega

/-- C2 (amended): in the scenario (width 800, one entity at x = 700 with velocity -3) the
entity is at x = 700 - 3k with velocity -3 after k calls of `update` for every k < 234, so
it has not gone below zero yet; the 234th call takes it to x = -2 and makes the velocity +3. -/
theorem scenario_crosses_zero_at_234 :
    (∀ k : Nat, k < 234 →
      (update^[k] scenarioGame).entities.map Entity.coords =
        [(700 - 3 * (k : Int), 500, -3)]) ∧
      (update^[234] scenarioGame).entities.map Entity.coords = [(-2, 500, 3)] := by
  refine ⟨fun k hk => scenario_linear k (by omega), ?_⟩
  have e1 : (GoInt.ofInt 700).val = 700 := by decide
  have e2 : (GoInt.ofInt (-3)).val = -3 := by decide
  have e3 : (GoInt.ofInt 800).val = 800 := by decide
  have e4 : (GoInt.ofInt 500).val = 500 := by decide
  obtain ⟨hx, hv, hy, _⟩ := updateEntity_iterate_linear (GoInt.ofInt 800)
    ({ sprite := (), x := .ofInt 700, y := .ofInt 500, vel := .ofInt (-3) } : Entity Unit) 233
    (by
      intro j h1 h2
      simp only [e1, e2, e3]
      omega)
  simp only [e1, e2] at hx
  have h234 : (updateEntity (GoInt.ofInt 800))^[234]
      ({ sprite := (), x := .ofInt 700, y := .ofInt 500, vel := .ofInt (-3) } : Entity Unit) =
      updateEntity (GoInt.ofInt 800) ((updateEntity (GoInt.ofInt 800))^[233]
        ({ sprite := (), x := .ofInt 700, y := .ofInt 500, vel := .ofInt (-3) } : Entity Unit)) :=
    Function.iterate_succ_apply' _ 233 _
  rw [update_iterate]
  simp only [scenarioGame, singleEntityGame, List.map_cons, List.map_nil, Entity.coords]
  rw [h234]
  generalize (updateEntity (GoInt.ofInt 800))^[233]
    ({ sprite := (), x := .ofInt 700, y := .ofInt 500, vel := .ofInt (-3) } : Entity Unit) = r
    at hx hv hy
  have hx1 : (updateEntity (GoInt.ofInt 800) r).x.val = -2 := by
    rw [updateEntity_x, hx, hv, e2]
    decide
  have hv1 : (updateEntity (GoInt.ofInt 800) r).vel.val = 3 := by
    rw [updateEntity_vel, hx1, if_pos (Or.inr (by decide)), hv]
    decide
  rw [hx1, hv1, updateEntity_y, hy, e4]

/-- C2 witness: the last step before the crossing, k = 233, where x = 1. -/
theorem scenario_crosses_zero_at_234_witness :
    233 < 234 ∧
      (update^[233] scenarioGame).entities.map Entity.coords =
        [(700 - 3 * ((233 : Nat) : Int), 500, -3)] :=
  ⟨by decide, scenario_crosses_zero_at_234.1 233 (by decide)⟩

/-- C3 (refuted as stated): with Width = 2^63 - 4 the entity at x = Width - 1 with velocity
5 is not taken to Width + 4 = 2^63, which no `int` holds: the addition wraps around to
-2^63 (and the velocity becomes -5). -/
theorem update_overshoot_wraps_at_widest :
    widestEdgeGame.cfg.Width.val = 9223372036854775804 ∧
      widestEdgeGame.entities.map Entity.coords = [(9223372036854775804 - 1, 300, 5)] ∧
      (update widestEdgeGame).entities.map Entity.coords = [(-9223372036854775808, 300, -5)] ∧
      (9223372036854775804 : Int) + 4 ≠ -9223372036854775808 := by
  decide

/-- C3 (amended): for every width, an entity at x = Width - 1 with velocity 5 is moved by
one call of `update` to x = Width + 4, past the bound and not clamped, provided Width + 4 is
representable (Width ≤ 2^63 - 5); for the four larger widths x wraps around to
Width + 4 - 2^64. In both cases the bound check of that same call sets the velocity to -5;
y and the drawable are kept. -/
theorem update_overshoots_then_reverses (g : Game S) (i : Nat) (e : Entity S)
    (he : g.entities[i]? = some e) (hx : e.x.val = g.cfg.Width.val - 1) (hv : e.vel.val = 5) :
    ∃ e1, (update g).entities[i]? = some e1 ∧ e1.sprite = e.sprite ∧ e1.y = e.y ∧
      e1.vel.val = -5 ∧
      (g.cfg.Width.val + 4 ≤ 9223372036854775807 → e1.x.val = g.cfg.Width.val + 4) ∧
      (9223372036854775807 < g.cfg.Width.val + 4 →
        e1.x.val = g.cfg.Width.val + 4 - 18446744073709551616) := by
  have hwlo := g.cfg.Width.lo
  have hwhi := g.cfg.Width.hi
  have hxlo := e.x.lo
  have hx1 : (updateEntity g.cfg.Width e).x.val = wrapInt (g.cfg.Width.val + 4) := by
    rw [updateEntity_x, hx, hv]
    congr 1
    ring
  refine ⟨updateEntity g.cfg.Width e, by simp [update, List.getElem?_map, he],
    updateEntity_sprite _ e, updateEntity_y _ e, ?_, ?_, ?_⟩
  · rw [updateEntity_vel, hx1]
    have hc : wrapInt (g.cfg.Width.val + 4) > g.cfg.Width.val ∨
        wrapInt (g.cfg.Width.val + 4) < 0 := by
      unfold wrapInt
      omega
    rw [if_pos hc, GoInt.neg_val, hv]
    decide
  · intro h
    rw [hx1]
    apply wrapInt_of_inRange <;> omega
  · intro h
    rw [hx1]
    unfold wrapInt
    omega

/-- C3 witness: width 800, entity at x = 799 with velocity 5 ends at x = 804, velocity -5. -/
theorem update_overshoots_then_reverses_witness :
    edgeGame.cfg.Width.val = 800 ∧
      edgeGame.entities[0]? =
        some { sprite := (), x := .ofInt 799, y := .ofInt 300, vel := .ofInt 5 } ∧
      ∃ e1, (update edgeGame).entities[0]? = some e1 ∧ e1.vel.val = -5 ∧ e1.x.val = 800 + 4 := by
  obtain ⟨e1, h1, _, _, hv, hx, _⟩ := update_overshoots_then_reverses edgeGame 0
    { sprite := (), x := .ofInt 799, y := .ofInt 300, vel := .ofInt 5 } rfl (by decide) (by decide)
  exact ⟨by decide, rfl, e1, h1, hv, hx (by decide)⟩

/-- C4: if none of the first N steps of an entity leaves the bounds, that is
0 ≤ x0 + k·v ≤ Width for every 1 ≤ k ≤ N, then after every k ≤ N calls of `update` (in
particular after N) the entity is at x0 + k·v with velocity v, y and drawable unchanged:
x changes by exactly v at each step, and no addition wraps around. -/
theorem update_linear_without_crossing (g : Game S) (i : Nat) (e : Entity S) (N : Nat)
    (he : g.entities[i]? = some e)
    (h : ∀ k : Nat, 1 ≤ k → k ≤ N →
      0 ≤ e.x.val + (k : Int) * e.vel.val ∧ e.x.val + (k : Int) * e.vel.val ≤ g.cfg.Width.val) :
    ∀ k : Nat, k ≤ N →
      (update^[k] g).entities[i]? =
          some { e with x := GoInt.ofInt (e.x.val + (k : Int) * e.vel.val) } ∧
        (GoInt.ofInt (e.x.val + (k : Int) * e.vel.val)).val = e.x.val + (k : Int) * e.vel.val := by
  intro k hk
  obtain ⟨hx, hv, hy, hsp⟩ := updateEntity_iterate_linear g.cfg.Width e k
    (fun j h1 h2 => h j h1 (le_trans h2 hk))
  have hval : (GoInt.ofInt (e.x.val + (k : Int) * e.vel.val)).val =
      e.x.val + (k : Int) * e.vel.val := by
    rw [← hx, GoInt.ofInt_val]
    exact wrapInt_of_inRange _ (GoInt.lo _) (GoInt.hi _)
  refine ⟨?_, hval⟩
  rw [update_iterate_entity g k i e he]
  congr 1
  apply Entity.eq_of_fields
  · exact hsp
  · rw [hx]
    exact hval.symm
  · exact hy
  · rw [hv]

/-- C4 witness: the scenario entity after 10 steps is at 700 + 10·(-3) = 670. -/
theorem update_linear_without_crossing_witness :
    scenarioGame.entities[0]? =
        some { sprite := (), x := .ofInt 700, y := .ofInt 500, vel := .ofInt (-3) } ∧
      (update^[10] scenarioGame).entities[0]? =
        some { sprite := (), x := .ofInt 670, y := .ofInt 500, vel := .ofInt (-3) } :=
  ⟨rfl, (update_linear_without_crossing scenarioGame 0
    { sprite := (), x := .ofInt 700, y := .ofInt 500, vel := .ofInt (-3) } 10 rfl
    (by
      intro k h1 h2
      have e1 : (GoInt.ofInt 700).val = 700 := by decide
      have e2 : (GoInt.ofInt (-3)).val = -3 := by decide
      have e3 : scenarioGame.cfg.Width.val = 800 := by decide
      simp only [e1, e2, e3]
      omega)
    10 (Nat.le_refl 10)).1⟩

/-- C5 (refuted as stated): width 800, an entity on the right bound x0 = 800 with velocity
v = 2^63 - 800. The first call wraps x around to -2^63, which is below -|v|, that is more
than one step past the left bound. -/
theorem update_overshoot_wraps_past_one_step :
    fastGame.cfg.Width.val = 800 ∧
      fastGame.entities.map Entity.coords = [(800, 0, 9223372036854775008)] ∧
      (update fastGame).entities.map Entity.coords =
        [(-9223372036854775808, 0, -9223372036854775008)] ∧
      ¬ (-|(9223372036854775008 : Int)| ≤ -9223372036854775808) := by
  decide

/-- C5 (amended): with Width ≥ 0 and Width + |v| representable (Width + |v| ≤ 2^63 - 1), an
entity that starts inside the bounds (0 ≤ x0 ≤ Width) with velocity v is, after any number n
of calls of `update`, at most one step past a bound, -|v| ≤ x_n ≤ Width + |v|, and whenever
x_n is outside [0, Width] the next call brings x_(n+1) back inside [0, Width]. -/
theorem update_overshoot_at_most_one_step (g : Game S) (i : Nat) (e : Entity S) (n : Nat)
    (he : g.entities[i]? = some e) (_hw : 0 ≤ g.cfg.Width.val)
    (hfit : g.cfg.Width.val + |e.vel.val| ≤ 9223372036854775807)
    (h0 : 0 ≤ e.x.val) (h1 : e.x.val ≤ g.cfg.Width.val) :
    ∃ en en1 : Entity S,
      (update^[n] g).entities[i]? = some en ∧ (update^[n + 1] g).entities[i]? = some en1 ∧
        -|e.vel.val| ≤ en.x.val ∧ en.x.val ≤ g.cfg.Width.val + |e.vel.val| ∧
        ((en.x.val < 0 ∨ g.cfg.Width.val < en.x.val) →
          0 ≤ en1.x.val ∧ en1.x.val ≤ g.cfg.Width.val) := by
  refine ⟨(updateEntity g.cfg.Width)^[n] e, (updateEntity g.cfg.Width)^[n + 1] e,
    update_iterate_entity g n i e he, update_iterate_entity g (n + 1) i e he, ?_⟩
  have hinv := updateEntity_iterate_near g.cfg.Width e.vel.val e n hfit ⟨rfl, Or.inl ⟨h0, h1⟩⟩
  have hstep := updateEntity_near g.cfg.Width e.vel.val _ hfit hinv
  obtain ⟨hv, hpos⟩ := hinv
  obtain ⟨_, hnext, hx1⟩ := hstep
  rw [Function.iterate_succ_apply']
  generalize (updateEntity g.cfg.Width)^[n] e = en at hv hpos hnext hx1 ⊢
  have a1 : en.vel.val ≤ |en.vel.val| := le_abs_self _
  have a2 : -|en.vel.val| ≤ en.vel.val := neg_abs_le _
  have a3 : 0 ≤ |en.vel.val| := abs_nonneg _
  rw [hv] at a1 a2 a3
  refine ⟨by omega, by omega, ?_⟩
  intro hout
  rw [hx1]
  omega

/-- C5 witness: width 10, start at x = 7 with velocity 3; after 2 calls the entity is at 13,
one step past the right bound, and the third call brings it back to 10. -/
theorem update_overshoot_at_most_one_step_witness :
    boundaryGame.entities[0]? =
        some { sprite := (), x := .ofInt 7, y := .ofInt 2, vel := .ofInt 3 } ∧
      ∃ en en1 : Entity Unit,
        (update^[2] boundaryGame).entities[0]? = some en ∧
          (update^[2 + 1] boundaryGame).entities[0]? = some en1 ∧
          -|(GoInt.ofInt 3).val| ≤ en.x.val ∧
          en.x.val ≤ boundaryGame.cfg.Width.val + |(GoInt.ofInt 3).val| ∧
          ((en.x.val < 0 ∨ boundaryGame.cfg.Width.val < en.x.val) →
            0 ≤ en1.x.val ∧ en1.x.val ≤ boundaryGame.cfg.Width.val) :=
  ⟨rfl, update_overshoot_at_most_one_step boundaryGame 0
    { sprite := (), x := .ofInt 7, y := .ofInt 2, vel := .ofInt 3 } 2 rfl
    (by decide) (by decide) (by decide) (by decide)⟩

/-- C10 (refuted as stated): the largest width, an entity at x0 = -2^63 with velocity -1, so
that x0 + |v| < 0. The first call wraps x around to 2^63 - 1, which is inside [0, Width]; the
velocity is not flipped, and the second call moves the entity on to 2^63 - 2. -/
theorem update_far_outside_wraps_inside :
    wrapAroundGame.cfg.Width.val = 9223372036854775807 ∧
      wrapAroundGame.entities.map Entity.coords = [(-9223372036854775808, 0, -1)] ∧
      (-9223372036854775808 : Int) + |(-1 : Int)| < 0 ∧
      (update wrapAroundGame).entities.map Entity.coords = [(9223372036854775807, 0, -1)] ∧
      (update^[2] wrapAroundGame).entities.map Entity.coords =
        [(9223372036854775806, 0, -1)] := by
  decide

/-- C10 (amended): an entity with velocity v ≠ 0 that starts more than one step outside the
bounds (x0 - |v| > Width, or x0 + |v| < 0), and whose first position x0 + v and negated
velocity -v are representable (-2^63 ≤ x0 + v ≤ 2^63 - 1 and v > -2^63), never enters
[0, Width]: every call of `update` negates its velocity and its x alternates between x0 + v
and x0, so after 2k calls it is (x0, v) and after 2k + 1 calls it is (x0 + v, -v), neither
position being inside [0, Width]. -/
theorem update_far_outside_oscillates (g : Game S) (i : Nat) (e : Entity S)
    (he : g.entities[i]? = some e) (hv : e.vel.val ≠ 0)
    (hout : e.x.val - |e.vel.val| > g.cfg.Width.val ∨ e.x.val + |e.vel.val| < 0)
    (hlo : -9223372036854775808 ≤ e.x.val + e.vel.val)
    (hhi : e.x.val + e.vel.val ≤ 9223372036854775807)
    (hneg : -9223372036854775808 < e.vel.val) :
    (∃ e1 : Entity S,
      e1.x.val = e.x.val + e.vel.val ∧ e1.vel.val = -e.vel.val ∧
        e1.y = e.y ∧ e1.sprite = e.sprite ∧
        ∀ k : Nat,
          (update^[2 * k] g).entities[i]? = some e ∧
            (update^[2 * k + 1] g).entities[i]? = some e1) ∧
      ¬ (0 ≤ e.x.val ∧ e.x.val ≤ g.cfg.Width.val) ∧
      ¬ (0 ≤ e.x.val + e.vel.val ∧ e.x.val + e.vel.val ≤ g.cfg.Width.val) ∧
      -e.vel.val ≠ e.vel.val := by
  have a1 : e.vel.val ≤ |e.vel.val| := le_abs_self _
  have a2 : -|e.vel.val| ≤ e.vel.val := neg_abs_le _
  have a3 : 0 ≤ |e.vel.val| := abs_nonneg _
  obtain ⟨hx1, hv1, hy1, hs1, _⟩ := updateEntity_far g.cfg.Width e hout hlo hhi hneg
  refine ⟨⟨updateEntity g.cfg.Width e, hx1, hv1, hy1, hs1, ?_⟩, by omega, by omega, by omega⟩
  intro k
  rw [update_iterate_entity g (2 * k) i e he, update_iterate_entity g (2 * k + 1) i e he]
  obtain ⟨h2k, h2k1⟩ := updateEntity_iterate_far g.cfg.Width e hout hlo hhi hneg k
  rw [h2k, h2k1]
  exact ⟨rfl, rfl⟩

/-- C10 witness: width 10, start at x = 20 with velocity 3; after 4 calls the entity is
back at (20, 3) and after 5 calls it is at (23, -3). -/
theorem update_far_outside_oscillates_witness :
    farGame.cfg.Width.val = 10 ∧
      farGame.entities[0]? =
        some { sprite := (), x := .ofInt 20, y := .ofInt 2, vel := .ofInt 3 } ∧
      ∃ e1 : Entity Unit, e1.x.val = 20 + 3 ∧ e1.vel.val = -3 ∧
        (update^[2 * 2] farGame).entities[0]? =
          some { sprite := (), x := .ofInt 20, y := .ofInt 2, vel := .ofInt 3 } ∧
        (update^[2 * 2 + 1] farGame).entities[0]? = some e1 := by
  obtain ⟨⟨e1, hx, hv, _, _, hk⟩, _⟩ := update_far_outside_oscillates farGame 0
    { sprite := (), x := .ofInt 20, y := .ofInt 2, vel := .ofInt 3 } rfl (by decide)
    (Or.inl (by decide)) (by decide) (by decide) (by decide)
  exact ⟨by decide, rfl, e1, hx, hv, (hk 2).1, (hk 2).2⟩

end UpdateClaims

/-! ## Setup: sprite cache, entity construction, startup failures -/

section SetupClaims

variable {Pic S : Type}

/-- C6: when every picture load succeeds, `loadSprites` completes and the resulting cache
has exactly one entry for each sprite path listed by any EntityConfig (any position in the
list, however often the path is repeated) and no entry for any other path; the entry of a
path is the sprite built from the picture loaded from that path. -/
theorem loadSprites_cache_exact (eng : Engine Pic S) (g : Game S)
    (hload : ∀ p ∈ allSpritePaths g.cfg, ∃ pic, eng.loadPicture p = .ok pic) :
    ∃ g1, loadSprites eng g = .ok g1 ∧
      (∀ p : String, spriteCount g1.sprites p = if p ∈ allSpritePaths g.cfg then 1 else 0) ∧
      (∀ p ∈ allSpritePaths g.cfg, ∃ pic, eng.loadPicture p = .ok pic ∧
        spriteGet g1.sprites p = some (eng.newSprite pic)) := by
  obtain ⟨m, hrun, hcount, hval⟩ := loadSpriteConfigs_ok eng g.cfg.EntityConfigs [] []
    (by intro q; simp [spriteCount]) (by intro q hq; simp at hq) hload
  refine ⟨{ g with sprites := m }, ?_, ?_, ?_⟩
  · simp only [loadSprites, hrun]
  · simpa [allSpritePaths] using hcount
  · simpa [allSpritePaths] using hval

/-- C6 witness: a configuration listing a.png twice in one entity and b.png in both. -/
theorem loadSprites_cache_exact_witness :
    ∃ g1, loadSprites fileEngine (newGame repeatedPathsConfig) = .ok g1 ∧
      (∀ p : String, spriteCount g1.sprites p =
        if p ∈ allSpritePaths (newGame repeatedPathsConfig : Game String).cfg then 1 else 0) ∧
      (∀ p ∈ allSpritePaths (newGame repeatedPathsConfig : Game String).cfg,
        ∃ pic, fileEngine.loadPicture p = .ok pic ∧
          spriteGet g1.sprites p = some (fileEngine.newSprite pic)) :=
  loadSprites_cache_exact fileEngine (newGame repeatedPathsConfig) (fun p _ => ⟨p, rfl⟩)

/-- C7: if every EntityConfig has a non-empty sprite list whose first path is a key of the
cache, `loadEntities` succeeds, changes only the entity list, and that list has the length
and order of EntityConfigs: the i-th entity has the cache entry of the i-th config's first
sprite path as drawable and the i-th config's x, y and velocity. If some config's first path
is missing from the cache, `loadEntities` produces no list; with every sprite list
non-empty it fails fatally with "sprite not found". -/
theorem loadEntities_contract (g : Game S) :
    ((∀ c ∈ g.cfg.EntityConfigs, ∃ first rest sprite,
        c.Sprites = first :: rest ∧ spriteGet g.sprites first = some sprite) →
      ∃ g1, loadEntities g = .ok g1 ∧
        g1.cfg = g.cfg ∧ g1.win = g.win ∧ g1.sprites = g.sprites ∧
        g1.entities.length = g.cfg.EntityConfigs.length ∧
        ∀ (i : Nat) (c : EntityConfig), g.cfg.EntityConfigs[i]? = some c →
          ∃ e first rest, g1.entities[i]? = some e ∧ c.Sprites = first :: rest ∧
            spriteGet g.sprites first = some e.sprite ∧
            e.x = c.X ∧ e.y = c.Y ∧ e.vel = c.Velocity) ∧
    ((∃ c ∈ g.cfg.EntityConfigs, ∃ first rest,
        c.Sprites = first :: rest ∧ spriteGet g.sprites first = none) →
      (∃ f, loadEntities g = .error f) ∧
      ((∀ c ∈ g.cfg.EntityConfigs, c.Sprites ≠ []) →
        loadEntities g = .error (.fatal "sprite not found"))) := by
  constructor
  · intro h
    obtain ⟨es, hrun, hlen, hall⟩ := loadEntityList_ok g.sprites g.cfg.EntityConfigs h
    exact ⟨{ g with entities := es }, by simp only [loadEntities, hrun], rfl, rfl, rfl, hlen, hall⟩
  · intro hmiss
    constructor
    · obtain ⟨f, hf⟩ := loadEntityList_missing_error g.sprites g.cfg.EntityConfigs hmiss
      exact ⟨f, by simp only [loadEntities, hf]⟩
    · intro hne
      simp only [loadEntities, loadEntityList_missing g.sprites g.cfg.EntityConfigs hne hmiss]

/-- C7 witness: the embedded configuration with a complete cache yields its two entities,
and with a cache that lacks the enemy sprite it is fatal. -/
theorem loadEntities_contract_witness :
    (∃ g1, loadEntities cachedGame = .ok g1 ∧
        g1.cfg = cachedGame.cfg ∧ g1.win = cachedGame.win ∧ g1.sprites = cachedGame.sprites ∧
        g1.entities.length = cachedGame.cfg.EntityConfigs.length ∧
        ∀ (i : Nat) (c : EntityConfig), cachedGame.cfg.EntityConfigs[i]? = some c →
          ∃ e first rest, g1.entities[i]? = some e ∧ c.Sprites = first :: rest ∧
            spriteGet cachedGame.sprites first = some e.sprite ∧
            e.x = c.X ∧ e.y = c.Y ∧ e.vel = c.Velocity) ∧
      loadEntities staleCacheGame = .error (.fatal "sprite not found") :=
  ⟨(loadEntities_contract cachedGame).1 (by
      intro c hc
      simp only [cachedGame, embeddedConfig, List.mem_cons, List.mem_singleton,
        List.not_mem_nil, or_false] at hc
      rcases hc with h | h
      · exact ⟨"player.Sprite.png", [], "player", by rw [h], by decide⟩
      · exact ⟨"enemy.Sprite.png", [], "enemy", by rw [h], by decide⟩),
    ((loadEntities_contract staleCacheGame).2
      ⟨{ Type_ := "enemy", Sprites := ["enemy.Sprite.png"], X := .ofInt 700, Y := .ofInt 500,
          Velocity := .ofInt (-3) },
        by simp [staleCacheGame, embeddedConfig], "enemy.Sprite.png", [], rfl, by decide⟩).2 (by
      intro c hc
      simp only [staleCacheGame, embeddedConfig, List.mem_cons, List.mem_singleton,
        List.not_mem_nil, or_false] at hc
      rcases hc with h | h <;> rw [h] <;> simp)⟩

/-- C9: if every EntityConfig has a non-empty sprite list and `loadSprites` completes, the
`loadEntities` call that follows succeeds; in particular it does not end in the fatal
"sprite not found". -/
theorem loadEntities_after_loadSprites (eng : Engine Pic S) (g g1 : Game S)
    (hne : ∀ c ∈ g.cfg.EntityConfigs, c.Sprites ≠ [])
    (hload : loadSprites eng g = .ok g1) :
    (∃ g2, loadEntities g1 = .ok g2) ∧ loadEntities g1 ≠ .error (.fatal "sprite not found") := by
  obtain ⟨m, hrun, hg1⟩ := loadSprites_ok_inv eng g g1 hload
  have hall : ∀ c ∈ g.cfg.EntityConfigs, ∃ first rest sprite,
      c.Sprites = first :: rest ∧ spriteGet m first = some sprite := by
    intro c hc
    cases hs : c.Sprites with
    | nil => exact absurd hs (hne c hc)
    | cons first rest =>
      have hsome := loadSpriteConfigs_isSome eng g.cfg.EntityConfigs [] m hrun first
        (Or.inl ⟨c, hc, by rw [hs]; exact List.mem_cons_self first rest⟩)
      obtain ⟨sprite, hsprite⟩ := Option.isSome_iff_exists.mp hsome
      exact ⟨first, rest, sprite, rfl, hsprite⟩
  obtain ⟨es, hes, _⟩ := loadEntityList_ok m g.cfg.EntityConfigs hall
  have hok : loadEntities g1 = .ok { g1 with entities := es } := by
    subst hg1
    simp only [loadEntities, hes]
  exact ⟨⟨_, hok⟩, by rw [hok]; simp⟩

/-- C9 witness: the embedded configuration, loaded by an engine that finds every file. -/
theorem loadEntities_after_loadSprites_witness :
    loadSprites fileEngine (newGame embeddedConfig) =
        .ok { (newGame embeddedConfig : Game String) with
              sprites := [("player.Sprite.png", "player.Sprite.png"),
                          ("enemy.Sprite.png", "enemy.Sprite.png")] } ∧
      (∃ g2, loadEntities ({ (newGame embeddedConfig : Game String) with
              sprites := [("player.Sprite.png", "player.Sprite.png"),
                          ("enemy.Sprite.png", "enemy.Sprite.png")] }) = .ok g2) :=
  ⟨rfl, (loadEntities_after_loadSprites fileEngine (newGame embeddedConfig) _
    (by
      intro c hc
      simp only [newGame, embeddedConfig, List.mem_cons, List.mem_singleton,
        List.not_mem_nil, or_false] at hc
      rcases hc with h | h <;> rw [h] <;> simp)
    rfl).1⟩

/-- C8 (refuted as stated): when no picture file can be read, `loadSprites` fails (an
AssetLoadError) only after `setupWindow` has created the window: the run is the window
creation followed by the fatal exit. -/
theorem asset_load_error_after_window :
    setupWindow missingFileEngine (newGame embeddedConfig) =
        .ok { (newGame embeddedConfig : Game String) with win := some { handle := 1 } } ∧
      loadSprites missingFileEngine
          { (newGame embeddedConfig : Game String) with win := some { handle := 1 } } =
        .error (.fatal "no such file or directory") ∧
      main missingFileEngine (.ok embeddedConfig) 3 =
        [.windowCreated, .exit (.fatal "no such file or directory")] :=
  ⟨rfl, rfl, rfl⟩

/-- C8 (amended): in the startup sequence (`main` followed by `Run`), a ConfigParseError
terminates the process before any window has been created (so does a failure to create the
window); an AssetLoadError (failure of `loadSprites`) and an AssetLookupError (failure of
`loadEntities`) both terminate it after the window has been created and before the first
iteration of the update/draw loop; a run that ends in a failure contains no frame at all. -/
theorem startup_failure_order (eng : Engine Pic S) (parsed : Except String GameConfig)
    (frames : Nat) :
    (∀ err, parsed = .error err → main eng parsed frames = [.exit (.fatal err)]) ∧
    (∀ cfg f, parsed = .ok cfg → setupWindow eng (newGame cfg) = .error f →
      main eng parsed frames = [.exit f]) ∧
    (∀ cfg g1 f, parsed = .ok cfg → setupWindow eng (newGame cfg) = .ok g1 →
      loadSprites eng g1 = .error f →
      main eng parsed frames = [.windowCreated, .exit f]) ∧
    (∀ cfg g1 g2 f, parsed = .ok cfg → setupWindow eng (newGame cfg) = .ok g1 →
      loadSprites eng g1 = .ok g2 → loadEntities g2 = .error f →
      main eng parsed frames = [.windowCreated, .exit f]) ∧
    (∀ f, Event.exit f ∈ main eng parsed frames →
      ∀ fr, Event.frame fr ∉ main eng parsed frames) := by
  refine ⟨?_, ?_, ?_, ?_, ?_⟩
  · intro err h
    subst h
    rfl
  · intro cfg f h hw
    subst h
    simp only [main, Run, hw]
  · intro cfg g1 f h hw hl
    subst h
    simp only [main, Run, hw, hl]
  · intro cfg g1 g2 f h hw hl he
    subst h
    simp only [main, Run, hw, hl, he]
  · intro f hf fr hfr
    cases parsed with
    | error err => simp [main] at hfr
    | ok cfg =>
      simp only [main, Run] at hf hfr
      cases hw : setupWindow eng (newGame cfg) with
      | error f1 => simp [hw] at hfr
      | ok g1 =>
        simp only [hw] at hf hfr
        cases hl : loadSprites eng g1 with
        | error f1 => simp [hl] at hfr
        | ok g2 =>
          simp only [hl] at hf hfr
          cases he : loadEntities g2 with
          | error f1 => simp [he] at hfr
          | ok g3 =>
            simp only [he, List.mem_cons] at hf
            rcases hf with hf | hf
            · cases hf
            · rcases runLoop_events g3 frames _ hf with ⟨fr1, h1⟩ | h1 <;> cases h1

/-- C8 witness: the embedded configuration with an engine that finds no picture file. -/
theorem startup_failure_order_witness :
    main missingFileEngine (.ok embeddedConfig) 3 =
        ([.windowCreated, .exit (.fatal "no such file or directory")] : List (Event String)) ∧
      main fileEngine (.error "unexpected end of JSON input") 3 =
        ([.exit (.fatal "unexpected end of JSON input")] : List (Event String)) :=
  ⟨(startup_failure_order missingFileEngine (.ok embeddedConfig) 3).2.2.1 embeddedConfig
      { (newGame embeddedConfig : Game String) with win := some { handle := 1 } }
      (.fatal "no such file or directory") rfl rfl rfl,
    (startup_failure_order fileEngine (.error "unexpected end of JSON input") 3).1
      "unexpected end of JSON input" rfl⟩

end SetupClaims

end AutoGame
